import Mathlib

/-!
Verification of the kanji_flow spaced-repetition scheduling engine.

This file shallowly embeds the scheduling core of the repository:
`app/srs_algorithm.py` (the `sm2_algorithm` state-transition function) and
the queue logic of `app/crud.py` (`get_queue_counts`,
`get_next_card_for_review`), and proves properties of the embedding.

Modelling conventions:
* Python floats (`ease_factor`, `interval_days`) are modelled as exact
  rationals `ℚ`; the claims under study concern the arithmetic formulas,
  not float rounding.
* Instants (`datetime`) are rationals counting minutes since an arbitrary
  epoch; calendar days (`date`) are integers counting days since the same
  epoch, so `timedelta(minutes=m)` is `+ m` and `timedelta(days=d)` is
  `+ 1440 * d`.
* The SQLite layer of `crud.py` stores datetimes as ISO-8601 TEXT and
  compares them with BINARY (bytewise) collation; that layer is embedded
  with genuine strings and an explicit bytewise lexicographic comparison.
* Python's built-in `round` (round-half-to-even) is embedded as `pyRound`.
-/

/-- The card lifecycle states stored in the `cards.state` column
(`'new'`, `'learning'`, `'review'`); the schema default is `'new'` and the
engine only ever writes these three values, so the state is a closed
three-valued enum. -/
inductive CState where
  | new
  | learning
  | review
deriving DecidableEq, Repr

/-- The operative card record of the engine: the fields of the `cards`
table read and written by `sm2_algorithm` and `crud.py`
(`app/database.py` / `tests/test_crud.py` schema).  The opaque JSON
`data` payload is never read or written by the scheduling core and is
omitted.  `next_review_date` and `last_reviewed_date` are instants in
minutes; `introduction_date` is a calendar day. -/
structure Card where
  id : ℕ
  deck_id : ℕ
  state : CState
  learning_step : ℕ
  interval_days : ℚ
  ease_factor : ℚ
  reviews : ℕ
  next_review_date : ℚ
  last_reviewed_date : Option ℚ
  introduction_date : Option ℤ
deriving DecidableEq, Repr

/-- Python's built-in `round` on an exact rational: round half to even
(banker's rounding), as used in `round(card.interval_days * card.ease_factor)`
at `srs_algorithm.py:58`. -/
def pyRound (q : ℚ) : ℤ :=
  let f := ⌊q⌋
  let r := q - f
  if r < 1/2 then f
  else if 1/2 < r then f + 1
  else if f % 2 = 0 then f else f + 1

/-- The calendar day an instant falls on: `date.today()` when the clock
reads instant `t` (1440 minutes per day). -/
def dayOf (t : ℚ) : ℤ := ⌊t / 1440⌋

/-- Embedding of `sm2_algorithm` (`app/srs_algorithm.py:6-68`).

The Python function reads the ambient clock several times per call:
`datetime.now()` at line 16 (stamped into `last_reviewed_date`),
`date.today()` at line 20 (stamped into `introduction_date` when the card
is new), and `datetime.now()` once more on the branch that schedules
`next_review_date` (line 33, 43, 51 or 66).  These three reads are the
explicit parameters `t1`, `today` and `t2`.

Branch structure mirrors the source: a quality below 3 is a lapse
(lines 22-33); otherwise a card in state new/learning either advances a
learning step (lines 41-44) or graduates (lines 46-51); a card in state
review follows the SM-2 interval/ease computation (lines 53-66).  Note
that the source schedules graduation and review with
`timedelta(minutes=...)` (lines 51 and 66), which is embedded verbatim
as `t2 + interval` in minutes. -/
def sm2_algorithm (card : Card) (quality : ℤ) (learning_steps_minutes : List ℤ)
    (graduating_interval_days : ℤ) (t1 : ℚ) (today : ℤ) (t2 : ℚ) : Card :=
  let c : Card := { card with
    last_reviewed_date := some t1,
    introduction_date :=
      if card.state = CState.new then some today else card.introduction_date }
  if quality < 3 then
    -- Incorrect answer (lapse), srs_algorithm.py:22-33
    { c with
      reviews := c.reviews + 1,
      learning_step := 0,
      state := CState.learning,
      interval_days := 0,
      ease_factor :=
        if (1.3 : ℚ) < c.ease_factor then c.ease_factor - 0.2 else c.ease_factor,
      next_review_date := t2 + ((learning_steps_minutes.headD 10 : ℤ) : ℚ) }
  else if c.state = CState.learning ∨ c.state = CState.new then
    -- Correct answer while new/learning, srs_algorithm.py:38-51
    if h : c.learning_step < learning_steps_minutes.length then
      { c with
        reviews := c.reviews + 1,
        state := CState.learning,
        next_review_date :=
          t2 + ((learning_steps_minutes.get ⟨c.learning_step, h⟩ : ℤ) : ℚ),
        learning_step := c.learning_step + 1 }
    else
      -- Graduation: note the minutes-scaled schedule at line 51.
      { c with
        reviews := c.reviews + 1,
        state := CState.review,
        interval_days := (graduating_interval_days : ℚ),
        next_review_date := t2 + (graduating_interval_days : ℚ) }
  else
    -- Correct answer in review state, srs_algorithm.py:53-66
    let newInterval : ℚ :=
      if c.interval_days = 0 then (graduating_interval_days : ℚ)
      else (pyRound (c.interval_days * c.ease_factor) : ℚ)
    let ef : ℚ := c.ease_factor +
      ((0.1 : ℚ) - ((5 - quality : ℤ) : ℚ) * ((0.08 : ℚ) + ((5 - quality : ℤ) : ℚ) * (0.02 : ℚ)))
    { c with
      reviews := c.reviews + 1,
      interval_days := newInterval,
      ease_factor := if ef < (1.3 : ℚ) then (1.3 : ℚ) else ef,
      next_review_date := t2 + newInterval }

/-- Frozen-clock form of `sm2_algorithm`: every ambient clock read during
the call returns the single instant `now` (this is exactly how
`tests/test_srs_algorithm.py` exercises the function, by mocking
`datetime.now` and `date.today` to frozen values). -/
def answer (card : Card) (quality : ℤ) (learning_steps_minutes : List ℤ)
    (graduating_interval_days : ℤ) (now : ℚ) : Card :=
  sm2_algorithm card quality learning_steps_minutes graduating_interval_days
    now (dayOf now) now

/-- Clock-stream form of `sm2_algorithm`: `clock k` is the value
the ambient clock returns at its `k`-th read during the call.  A new
card triggers three reads (`datetime.now()`, `date.today()`,
`datetime.now()`); any other card triggers two, and the `today` argument
of `sm2_algorithm` is then never consulted (the stamping branch at
srs_algorithm.py:19-20 is not taken), so it is passed an arbitrary
unread value. -/
def sm2_run (card : Card) (quality : ℤ) (learning_steps_minutes : List ℤ)
    (graduating_interval_days : ℤ) (clock : ℕ → ℚ) : Card :=
  if card.state = CState.new then
    sm2_algorithm card quality learning_steps_minutes graduating_interval_days
      (clock 0) (dayOf (clock 1)) (clock 2)
  else
    sm2_algorithm card quality learning_steps_minutes graduating_interval_days
      (clock 0) 0 (clock 1)

/-- One answer event: quality, learning-step ladder, graduating interval
and the (frozen) instant of the call. -/
structure AnswerEvent where
  quality : ℤ
  steps : List ℤ
  grad : ℤ
  now : ℚ

/-- Fold a sequence of answer events over a card, each applied with
`answer`. -/
def applyAnswers (card : Card) (l : List AnswerEvent) : Card :=
  l.foldl (fun c e => answer c e.quality e.steps e.grad e.now) card

/-!
### The SQLite queue layer of `app/crud.py`

`crud.py` stores datetimes as ISO-8601 `TEXT` (`datetime.isoformat()`,
e.g. `"2023-10-27T12:00:00"`) and bare dates as `date.isoformat()`
(`"2023-10-27"`), and filters with SQL comparisons under SQLite's
default BINARY collation, i.e. bytewise (`memcmp`) comparison of the
UTF-8 encodings.  For Unicode scalar values the bytewise UTF-8 order
coincides with the codepoint order, so the collation is embedded as
character-by-character lexicographic comparison. -/

/-- Bytewise lexicographic strict order on character lists (a proper
prefix is smaller), the order `memcmp` induces on the UTF-8 encodings. -/
def lexLtb : List Char → List Char → Bool
  | [], [] => false
  | [], _ :: _ => true
  | _ :: _, [] => false
  | a :: as, b :: bs => if a < b then true else if b < a then false else lexLtb as bs

/-- SQLite `x < y` on TEXT values under BINARY collation. -/
def strLtb (s t : String) : Bool := lexLtb s.toList t.toList

/-- SQLite `x <= y` on TEXT values under BINARY collation. -/
def strLeb (s t : String) : Bool := !(strLtb t s)

/-- SQLite's `date(x)` applied to a stored ISO-8601 datetime or date
string: the leading `"YYYY-MM-DD"` part, i.e. the first ten
characters (a bare ten-character date string is returned unchanged). -/
def sqliteDate (s : String) : String := String.mk (s.toList.take 10)

/-- A row of the `cards` table as the queue queries of `crud.py` see it:
the scheduling columns, with the TEXT date columns kept as the strings
SQLite compares.  `introduction_date` is nullable (`NULL` until the card
is introduced); in SQL, comparisons against `NULL` are never true. -/
structure DbCard where
  id : ℕ
  deck_id : ℕ
  state : CState
  next_review_date : String
  introduction_date : Option String
deriving DecidableEq, Repr

/-- The result of `get_queue_counts`. -/
structure QueueCounts where
  learning : ℕ
  review : ℕ
  new : ℕ
deriving DecidableEq, Repr

/-- Embedding of `get_queue_counts` (`app/crud.py:68-109`).  `now_iso` is
`datetime.now().isoformat()` and `today_iso` is `date.today().isoformat()`
(a bare ten-character date).  The learning count compares
`next_review_date <= now_iso`; the review count compares
`next_review_date <= today_iso` — the raw datetime string against the
bare date string, exactly as the SQL at line 83 does; the new count is
every card with `state = 'new'`, with `new_card_limit` unused (the
clamping code at lines 90-98 is commented out in the source). -/
def get_queue_counts (cards : List DbCard) (deckId : ℕ) (newCardLimit : ℕ)
    (now_iso today_iso : String) : QueueCounts :=
  { learning := cards.countP fun c =>
      c.deck_id == deckId && c.state == CState.learning
        && strLeb c.next_review_date now_iso,
    review := cards.countP fun c =>
      c.deck_id == deckId && c.state == CState.review
        && strLeb c.next_review_date today_iso,
    new := cards.countP fun c => c.deck_id == deckId && c.state == CState.new }

/-- Embedding of `ORDER BY <key> ASC LIMIT 1` over a row list: the first row that is
`better` than every other kept row; among equal keys the first row in
table order is kept (SQL leaves the tie order unspecified; the claims
under study do not depend on it). -/
def pickBy {β : Type} (better : β → β → Bool) (l : List β) : Option β :=
  l.foldl (fun a x =>
    match a with
    | none => some x
    | some m => if better x m then some x else some m)
    none

/-- Embedding of `ORDER BY next_review_date ASC LIMIT 1`: the row with the
smallest `next_review_date` string. -/
def minByNrd (cards : List DbCard) : Option DbCard :=
  pickBy (fun a b => strLtb a.next_review_date b.next_review_date) cards

/-- Embedding of `ORDER BY id ASC LIMIT 1`: the row with the smallest id. -/
def minById (cards : List DbCard) : Option DbCard :=
  pickBy (fun a b => a.id < b.id) cards

/-- The `SELECT COUNT(*) ... WHERE date(introduction_date) = today` query
of `crud.py:144-148` (also `get_new_cards_rated_today`): cards of the deck
whose introduction date falls on today; rows with `NULL`
`introduction_date` never match. -/
def countIntroducedToday (cards : List DbCard) (deckId : ℕ) (today_iso : String) : ℕ :=
  cards.countP fun c =>
    c.deck_id == deckId &&
      match c.introduction_date with
      | some d => sqliteDate d == today_iso
      | none => false

/-- Embedding of `get_next_card_for_review` (`app/crud.py:112-162`).
Priority 1: learning cards with `next_review_date <= now_iso`, earliest
first.  Priority 2: review cards with `date(next_review_date) <=
today_iso`, earliest first.  Priority 3: if the count of cards introduced
today is below `new_card_limit`, the new card with the smallest id.
Otherwise `None`.  `total_limit` is accepted and unused, as in the
source. -/
def get_next_card_for_review (cards : List DbCard) (deckId : ℕ)
    (newCardLimit : ℕ) (totalLimit : ℕ) (now_iso today_iso : String) :
    Option DbCard :=
  match minByNrd (cards.filter fun c =>
      c.deck_id == deckId && c.state == CState.learning
        && strLeb c.next_review_date now_iso) with
  | some card => some card
  | none =>
    match minByNrd (cards.filter fun c =>
        c.deck_id == deckId && c.state == CState.review
          && strLeb (sqliteDate c.next_review_date) today_iso) with
    | some card => some card
    | none =>
      if countIntroducedToday cards deckId today_iso < newCardLimit then
        minById (cards.filter fun c =>
          c.deck_id == deckId && c.state == CState.new)
      else
        none

/-!
### Concrete instances used by counterexamples and witnesses
-/

/-- A freshly created card: state `'new'`, all scheduling columns at their
schema defaults (`interval_days = 0`, `ease_factor = 2.5`, `reviews = 0`,
`learning_step = 0`), as `create_card` inserts it. -/
def freshCard : Card :=
  { id := 1
    deck_id := 1
    state := CState.new
    learning_step := 0
    interval_days := 0
    ease_factor := 2.5
    reviews := 0
    next_review_date := 0
    last_reviewed_date := none
    introduction_date := none }

/-- A graduated card under review: `interval_days = 10`,
`ease_factor = 2.5` (the configuration of Scenario D and of
`test_review_card_good`). -/
def reviewCard10 : Card :=
  { id := 2
    deck_id := 1
    state := CState.review
    learning_step := 0
    interval_days := 10
    ease_factor := 2.5
    reviews := 3
    next_review_date := 0
    last_reviewed_date := some 0
    introduction_date := some 0 }

/-- A graduated card whose ease factor has decayed to 1.4 — reachable,
e.g., from ease 2.5 via repeated lapse penalties down to 1.5 followed by
a quality-3 review answer (1.5 − 0.14 = 1.36) and more lapses; any value
in (1.3, 1.5) exposes the unclamped lapse penalty. -/
def lowEaseCard : Card :=
  { reviewCard10 with id := 3, ease_factor := 1.4 }

/-- A card mid-way through the learning ladder (the configuration of
`test_intermediate_learning_step`): state `'learning'`,
`learning_step = 1`. -/
def learnCard : Card :=
  { id := 4
    deck_id := 1
    state := CState.learning
    learning_step := 1
    interval_days := 0
    ease_factor := 2.5
    reviews := 1
    next_review_date := 0
    last_reviewed_date := some 0
    introduction_date := some 0 }

/-- A frozen clock: every ambient read returns instant 0. -/
def clockFrozen : ℕ → ℚ := fun _ => 0

/-- A ticking clock: the first ambient read returns instant 0, every
later read returns one day later. -/
def clockTicking : ℕ → ℚ := fun n => if n = 0 then 0 else 1440

/-- Another clock whose first three reads are 0, like `clockFrozen`,
but whose later reads differ. -/
def clockAlt : ℕ → ℚ := fun n => if n ≤ 2 then 0 else 7

/-- Rows of the `cards` table for the queue claims, in a deck with id 1,
on a day where `now` is `"2023-10-27T12:00:00"` and `today` is
`"2023-10-27"`. -/
def dbReviewDueToday : DbCard :=
  { id := 1
    deck_id := 1
    state := CState.review
    next_review_date := "2023-10-27T10:00:00"
    introduction_date := some "2023-10-20" }

def dbReviewDueYesterday : DbCard :=
  { id := 2
    deck_id := 1
    state := CState.review
    next_review_date := "2023-10-26T23:59:59"
    introduction_date := some "2023-10-20" }

def dbLearningDueNow : DbCard :=
  { id := 3
    deck_id := 1
    state := CState.learning
    next_review_date := "2023-10-27T11:59:00"
    introduction_date := some "2023-10-27" }

def dbLearningFuture : DbCard :=
  { id := 4
    deck_id := 1
    state := CState.learning
    next_review_date := "2023-10-28T10:00:00"
    introduction_date := some "2023-10-27" }

def dbNewCard : DbCard :=
  { id := 5
    deck_id := 1
    state := CState.new
    next_review_date := "2023-10-27T09:00:00"
    introduction_date := none }

/-!
## Helper lemmas
-/

/-- Whatever the quality and prior state, a card returned by `answer` is
never in state new: every branch of the algorithm leaves the card in
learning or review. -/
theorem answer_state_ne_new (c : Card) (q : ℤ) (s : List ℤ) (g : ℤ) (t : ℚ) :
    (answer c q s g t).state ≠ CState.new := by
  by_cases hq : q < 3
  · simp [answer, sm2_algorithm, hq]
  · by_cases hst : c.state = CState.learning ∨ c.state = CState.new
    · by_cases hstep : c.learning_step < s.length
      · simp [answer, sm2_algorithm, hq, hst, hstep]
      · simp [answer, sm2_algorithm, hq, hst, hstep]
    · have hrev : c.state = CState.review := by
        cases h : c.state <;> simp [h] at hst ⊢
      simp [answer, sm2_algorithm, hq, hst, hrev]

/-- On a card that is not in state new, `answer` never touches
`introduction_date` (the stamping branch at srs_algorithm.py:19-20 is the
only write to that field). -/
theorem answer_intro_stable (c : Card) (q : ℤ) (s : List ℤ) (g : ℤ) (t : ℚ)
    (h : c.state ≠ CState.new) :
    (answer c q s g t).introduction_date = c.introduction_date := by
  by_cases hq : q < 3
  · simp [answer, sm2_algorithm, hq, h]
  · cases hst : c.state with
    | new => exact absurd hst h
    | learning =>
      by_cases hstep : c.learning_step < s.length <;>
        simp [answer, sm2_algorithm, hq, hst, hstep]
    | review => simp [answer, sm2_algorithm, hq, hst]

/-- Folding any sequence of answers over a card that is not in state new
leaves `introduction_date` untouched. -/
theorem applyAnswers_intro_stable (l : List AnswerEvent) (c : Card)
    (h : c.state ≠ CState.new) :
    (applyAnswers c l).introduction_date = c.introduction_date := by
  induction l generalizing c with
  | nil => rfl
  | cons e l ih =>
    have h1 := answer_intro_stable c e.quality e.steps e.grad e.now h
    have h2 := answer_state_ne_new c e.quality e.steps e.grad e.now
    simp [applyAnswers] at ih ⊢
    rw [ih _ h2, h1]

/-- Comparing a longer character list `l` against a shorter one `m`:
`m` is lexicographically below `l` exactly when the `m`-length prefix of
`l` is not below `m` (on equal prefixes the shorter list is the smaller
one). -/
theorem lexLtb_take : ∀ (m l : List Char), m.length < l.length →
    lexLtb m l = !lexLtb (l.take m.length) m
  | [], [], h => by simp at h
  | [], _ :: _, _ => by simp [lexLtb]
  | _ :: _, [], h => by simp at h
  | a :: as, b :: bs, h => by
    have hlen : as.length < bs.length := by simpa using h
    have ih := lexLtb_take as bs hlen
    by_cases h1 : a < b
    · have h2 : ¬ b < a := asymm h1
      simp [lexLtb, h1, h2, List.take_succ_cons]
    · by_cases h2 : b < a
      · simp [lexLtb, h1, h2, List.take_succ_cons]
      · simp [lexLtb, h1, h2, List.take_succ_cons, ih]

/-- For a string `s` strictly longer than `t`, the SQL comparison
`s <= t` holds exactly when the `t`-length prefix of `s` is strictly
below `t`. -/
theorem strLeb_eq_ltb_date (s t : String) (h : t.length < s.length) :
    strLeb s t = lexLtb (s.toList.take t.length) t.toList := by
  have hlen : t.toList.length = t.length := rfl
  rw [strLeb, strLtb, lexLtb_take t.toList s.toList (by rw [hlen]; exact h)]
  simp [hlen]

/-- For a stored full ISO datetime string `s` (longer than ten
characters) and a bare ten-character date string `t`, the SQL comparison
`s <= t` holds exactly when the calendar date of `s` is strictly before
`t`: a datetime on day `t` itself extends `t` with `"T..."` and is
therefore strictly above the bare date string. -/
theorem strLeb_date_of_long (s t : String) (ht : t.length = 10) (hs : 10 < s.length) :
    strLeb s t = strLtb (sqliteDate s) t := by
  have h : t.length < s.length := by rw [ht]; exact hs
  rw [strLeb_eq_ltb_date s t h, strLtb, sqliteDate, ht]
  rfl

/-- Generic fold of the `pickBy` step: a produced row is the accumulator
or a member of the list. -/
theorem foldl_pick_mem {β : Type} (better : β → β → Bool) :
    ∀ (l : List β) (acc : Option β) (c : β),
      l.foldl (fun a x =>
        match a with
        | none => some x
        | some m => if better x m then some x else some m) acc = some c →
      acc = some c ∨ c ∈ l
  | [], acc, c, h => Or.inl h
  | x :: l, acc, c, h => by
    rcases foldl_pick_mem better l _ c h with h1 | h1
    · cases acc with
      | none =>
        simp at h1
        exact Or.inr (h1 ▸ List.mem_cons_self x l)
      | some m =>
        by_cases hb : better x m
        · simp [hb] at h1
          exact Or.inr (h1 ▸ List.mem_cons_self x l)
        · simp [hb] at h1
          exact Or.inl (by rw [h1])
    · exact Or.inr (List.mem_cons_of_mem x h1)

/-- A row returned by `pickBy` is a member of the candidate list. -/
theorem pickBy_mem {β : Type} (better : β → β → Bool) (l : List β) (c : β)
    (h : pickBy better l = some c) : c ∈ l := by
  rcases foldl_pick_mem better l none c h with h1 | h1
  · simp at h1
  · exact h1

/-- A row returned by `minByNrd` is a member of the candidate list. -/
theorem minByNrd_mem (l : List DbCard) (c : DbCard) (h : minByNrd l = some c) : c ∈ l :=
  pickBy_mem _ l c h

/-- A row returned by `minById` is a member of the candidate list. -/
theorem minById_mem (l : List DbCard) (c : DbCard) (h : minById l = some c) : c ∈ l :=
  pickBy_mem _ l c h

/-- Counting with pointwise equal predicates gives equal counts. -/
theorem countP_congr_eq {α : Type} (p q : α → Bool) :
    ∀ l : List α, (∀ a ∈ l, p a = q a) → l.countP p = l.countP q
  | [], _ => rfl
  | a :: l, h => by
    have ih := countP_congr_eq p q l (fun x hx => h x (List.mem_cons_of_mem a hx))
    simp [List.countP_cons, ih, h a (List.mem_cons_self a l)]

/-- Sanity link between the two clock models: running `sm2_algorithm`
against a constant clock stream frozen at `t` is the same as the
`answer` wrapper at instant `t`. -/
theorem sm2_run_frozen (c : Card) (q : ℤ) (s : List ℤ) (g : ℤ) (t : ℚ) :
    sm2_run c q s g (fun _ => t) = answer c q s g t := by
  by_cases hst : c.state = CState.new
  · simp [sm2_run, answer, hst]
  · simp only [sm2_run, answer, hst, if_false, if_neg hst]
    by_cases hq : q < 3
    · simp [sm2_algorithm, hq, hst]
    · cases h : c.state with
      | new => exact absurd h hst
      | learning =>
        by_cases hstep : c.learning_step < s.length <;>
          simp [sm2_algorithm, hq, h, hstep]
      | review => simp [sm2_algorithm, hq, h]

/-!
## Claim theorems
-/

/-- C1.  The claimed invariant `ease_factor ≥ 1.3` after every `answer()`
fails on the code: the lapse penalty at srs_algorithm.py:27-29 is
`if ease_factor > 1.3: ease_factor -= 0.2` with no clamping, not
`max(1.3, ease_factor - 0.2)`.  A graduated card with ease factor 1.4
lapses to ease factor 1.2, strictly below the 1.3 floor the claim (and
the test suite's stated intent, `test_ease_factor_floor`) promises. -/
theorem lapse_ease_penalty_breaks_floor :
    (answer lowEaseCard 1 [10, 1440] 4 0).ease_factor = 1.2 ∧
    (answer lowEaseCard 1 [10, 1440] 4 0).ease_factor < 1.3 := by
  norm_num [answer, sm2_algorithm, lowEaseCard, reviewCard10]

/-- C2.  Scenario A (new card, empty ladder, quality 3, graduating
interval 4): the card does graduate with `state = review` and
`interval_days = 4`, but the code schedules
`next_review_date = now + timedelta(minutes=graduating_interval_days)`
(srs_algorithm.py:51) — four minutes, not the four days the claim and
the repository's own tests (`test_learning_card_graduates`,
`test_graduation_with_no_learning_steps`) require. -/
theorem graduation_schedules_minutes_not_days :
    (answer freshCard 3 [] 4 0).state = CState.review ∧
    (answer freshCard 3 [] 4 0).interval_days = 4 ∧
    (answer freshCard 3 [] 4 0).next_review_date = 0 + (4 : ℚ) ∧
    (answer freshCard 3 [] 4 0).next_review_date ≠ 0 + 1440 * (4 : ℚ) := by
  norm_num [answer, sm2_algorithm, freshCard]

/-- C3 (counterexample).  `answer()` does not reject an out-of-range
quality: called with quality 6 it processes the card and returns a
mutated card (the claim says the card must be left completely
unchanged). -/
theorem invalid_quality_not_rejected :
    answer reviewCard10 6 [10, 1440] 4 0 ≠ reviewCard10 := by
  intro h
  have hrev : (answer reviewCard10 6 [10, 1440] 4 0).reviews = reviewCard10.reviews := by
    rw [h]
  have hst : CState.review = CState.learning ∨ CState.review = CState.new ↔ False := by simp
  norm_num [answer, sm2_algorithm, reviewCard10, hst] at hrev

/-- C3 (amended).  `answer()` performs no quality validation at all:
for every integer quality — in range or not — the call goes through,
increments `reviews` and stamps `last_reviewed_date`, so an out-of-range
quality mutates the card instead of being rejected (qualities below 3
take the lapse path and all others the correct path). -/
theorem answer_mutates_for_every_quality (c : Card) (q : ℤ) (s : List ℤ) (g : ℤ) (t : ℚ) :
    (answer c q s g t).reviews = c.reviews + 1 ∧
    (answer c q s g t).last_reviewed_date = some t := by
  by_cases hq : q < 3
  · simp [answer, sm2_algorithm, hq]
  · by_cases hst : c.state = CState.learning ∨ c.state = CState.new
    · by_cases hstep : c.learning_step < s.length
      · simp [answer, sm2_algorithm, hq, hst, hstep]
      · simp [answer, sm2_algorithm, hq, hst, hstep]
    · simp [answer, sm2_algorithm, hq, hst]

/-- C4.  Scenario D (review card, interval 10, ease 2.5, quality 3):
the interval and ease-factor formulas hold (`interval' = round(10*2.5) =
25`, `ease' = 2.36`), but the code schedules
`next_review_date = now + timedelta(minutes=card.interval_days)`
(srs_algorithm.py:66) — 25 minutes, not the 25 days the claim and the
repository's own test (`test_review_card_good`) require. -/
theorem review_schedules_minutes_not_days :
    (answer reviewCard10 3 [10, 1440] 4 0).interval_days = 25 ∧
    (answer reviewCard10 3 [10, 1440] 4 0).ease_factor = 2.36 ∧
    (answer reviewCard10 3 [10, 1440] 4 0).next_review_date = 0 + (25 : ℚ) ∧
    (answer reviewCard10 3 [10, 1440] 4 0).next_review_date ≠ 0 + 1440 * (25 : ℚ) := by
  have hst : CState.review = CState.learning ∨ CState.review = CState.new ↔ False := by simp
  norm_num [answer, sm2_algorithm, reviewCard10, pyRound, hst]

/-- C5.  Every lapse (quality below 3), from any state, increments
`reviews`, resets `learning_step` to 0, zeroes the interval, moves the
card to learning, and schedules the next review at `now` plus the first
learning step — with a fixed 10-minute default when the ladder is empty,
so an empty ladder never makes `answer()` fail
(srs_algorithm.py:22-33). -/
theorem lapse_resets_to_first_learning_step (c : Card) (q : ℤ) (s : List ℤ) (g : ℤ)
    (t : ℚ) (hq : q < 3) :
    (answer c q s g t).reviews = c.reviews + 1 ∧
    (answer c q s g t).learning_step = 0 ∧
    (answer c q s g t).interval_days = 0 ∧
    (answer c q s g t).state = CState.learning ∧
    (answer c q s g t).next_review_date = t + ((s.headD 10 : ℤ) : ℚ) := by
  simp [answer, sm2_algorithm, hq]

/-- Witness for C5: a lapse with quality 1 on a fresh card with the
default ladder `[10, 1440]`, and a lapse on the same card with an empty
ladder (exercising the 10-minute default). -/
theorem lapse_resets_to_first_learning_step_witness :
    ((1 : ℤ) < 3 ∧
      (answer freshCard 1 [10, 1440] 4 0).reviews = freshCard.reviews + 1 ∧
      (answer freshCard 1 [10, 1440] 4 0).learning_step = 0 ∧
      (answer freshCard 1 [10, 1440] 4 0).interval_days = 0 ∧
      (answer freshCard 1 [10, 1440] 4 0).state = CState.learning ∧
      (answer freshCard 1 [10, 1440] 4 0).next_review_date =
        0 + ((([10, 1440] : List ℤ).headD 10 : ℤ) : ℚ)) ∧
    (answer freshCard 1 [] 4 0).next_review_date =
      0 + ((([] : List ℤ).headD 10 : ℤ) : ℚ) :=
  ⟨⟨by decide, lapse_resets_to_first_learning_step freshCard 1 [10, 1440] 4 0 (by decide)⟩,
    (lapse_resets_to_first_learning_step freshCard 1 [] 4 0 (by decide)).2.2.2.2⟩

/-- C8.  Once a card has been answered (and so has left state new),
no further sequence of `answer()` calls — lapses or correct answers of
any quality — ever changes `introduction_date`: the only write to that
field is the stamping branch at srs_algorithm.py:19-20, which requires
state new, and `answer` never returns a card in state new. -/
theorem introduction_date_stable_once_set (c : Card) (q : ℤ) (s : List ℤ) (g : ℤ)
    (t : ℚ) (l : List AnswerEvent) :
    (applyAnswers (answer c q s g t) l).introduction_date =
      (answer c q s g t).introduction_date :=
  applyAnswers_intro_stable l _ (answer_state_ne_new c q s g t)

/-- C10.  A correct answer (quality at least 3) on a new or learning
card with learning steps remaining advances the ladder but leaves both
`ease_factor` and `interval_days` untouched (srs_algorithm.py:38-44):
the ease factor is only modified on a lapse or a review-state answer,
and the interval only on a lapse or at graduation. -/
theorem learning_advance_preserves_ease_and_interval (c : Card) (q : ℤ) (s : List ℤ)
    (g : ℤ) (t : ℚ)
    (hstate : c.state = CState.new ∨ c.state = CState.learning)
    (hq : 3 ≤ q) (hstep : c.learning_step < s.length) :
    (answer c q s g t).ease_factor = c.ease_factor ∧
    (answer c q s g t).interval_days = c.interval_days := by
  have hq' : ¬ q < 3 := not_lt.mpr hq
  simp [answer, sm2_algorithm, hq', hstate.symm, hstep]

/-- Witness for C10: quality 3 on the mid-ladder learning card with the
three-step ladder of `test_intermediate_learning_step`. -/
theorem learning_advance_preserves_ease_and_interval_witness :
    (learnCard.state = CState.new ∨ learnCard.state = CState.learning) ∧
    (3 : ℤ) ≤ 3 ∧ learnCard.learning_step < ([10, 60, 1440] : List ℤ).length ∧
    ((answer learnCard 3 [10, 60, 1440] 4 0).ease_factor = learnCard.ease_factor ∧
      (answer learnCard 3 [10, 60, 1440] 4 0).interval_days = learnCard.interval_days) :=
  ⟨Or.inr (by decide), by decide, by decide,
    learning_advance_preserves_ease_and_interval learnCard 3 [10, 60, 1440] 4 0
      (Or.inr (by decide)) (by decide) (by decide)⟩

/-- C9 (counterexample).  The output of `sm2_algorithm` is not a
function of its explicit inputs plus a single current instant: the
source reads the ambient clock again when scheduling `next_review_date`
(srs_algorithm.py:66 versus line 16), so two runs whose clocks agree at
the moment of the call (`clock 0 = 0` for both) but tick differently
afterwards return different cards. -/
theorem sm2_not_determined_by_single_instant :
    sm2_run reviewCard10 3 [10, 1440] 4 clockFrozen ≠
      sm2_run reviewCard10 3 [10, 1440] 4 clockTicking ∧
    clockFrozen 0 = clockTicking 0 := by
  constructor
  · intro h
    have hn : (sm2_run reviewCard10 3 [10, 1440] 4 clockFrozen).next_review_date =
        (sm2_run reviewCard10 3 [10, 1440] 4 clockTicking).next_review_date := by rw [h]
    simp [sm2_run, sm2_algorithm, reviewCard10, clockFrozen, clockTicking, pyRound] at hn
  · rfl

/-- C9 (amended).  `sm2_algorithm` owns no other effect than the ambient
clock: its result is a deterministic function of the card, the quality,
the learning steps, the graduating interval and the (at most three)
ambient clock readings of the call, so two runs whose clocks agree on
those readings return identical cards; under a frozen clock — as the
tests mock it — it is therefore a pure function of a single instant. -/
theorem sm2_deterministic_in_clock_reads (c : Card) (q : ℤ) (s : List ℤ) (g : ℤ)
    (σ τ : ℕ → ℚ) (h0 : σ 0 = τ 0) (h1 : σ 1 = τ 1) (h2 : σ 2 = τ 2) :
    sm2_run c q s g σ = sm2_run c q s g τ := by
  simp [sm2_run, h0, h1, h2]

/-- Witness for C9 (amended): a frozen clock and a clock that agrees on
the first three reads but differs later give identical results. -/
theorem sm2_deterministic_in_clock_reads_witness :
    (clockFrozen 0 = clockAlt 0 ∧ clockFrozen 1 = clockAlt 1 ∧ clockFrozen 2 = clockAlt 2) ∧
    sm2_run freshCard 3 [10] 4 clockFrozen = sm2_run freshCard 3 [10] 4 clockAlt :=
  ⟨⟨rfl, rfl, rfl⟩,
    sm2_deterministic_in_clock_reads freshCard 3 [10] 4 clockFrozen clockAlt rfl rfl rfl⟩

/-- C6 (counterexample).  `get_queue_counts` does not count a review
card due earlier today: the SQL at crud.py:83 compares the full ISO
datetime string against the bare date string `today_iso` (with no
`date(...)` conversion, unlike the matching query in
`get_next_card_for_review`), and `"2023-10-27T10:00:00" <= "2023-10-27"`
is false under bytewise collation.  The card below is review-state and
due on or before today by calendar-day comparison, yet the review count
is 0 where the claim requires 1. -/
theorem queue_counts_misses_review_due_today :
    (get_queue_counts [dbReviewDueToday] 1 5 "2023-10-27T12:00:00" "2023-10-27").review = 0 ∧
    dbReviewDueToday.state = CState.review ∧
    strLeb (sqliteDate dbReviewDueToday.next_review_date) "2023-10-27" = true := by
  decide

/-- C6 (amended).  `get_queue_counts` reports the count of learning
cards due now (`next_review_date <= now`), the count of all new cards
unclamped by the daily limit, and — because every stored
`next_review_date` is a full ISO datetime, longer than the bare
ten-character `today` string — a review count of exactly the review
cards whose calendar due-date is strictly before today; review cards due
later today are not counted. -/
theorem queue_counts_amended_day_strict (cards : List DbCard) (deckId limit : ℕ)
    (now today : String) (htoday : today.length = 10)
    (hlong : ∀ c ∈ cards, c.state = CState.review → 10 < c.next_review_date.length) :
    (get_queue_counts cards deckId limit now today).learning =
      cards.countP (fun c => c.deck_id == deckId && c.state == CState.learning
        && strLeb c.next_review_date now) ∧
    (get_queue_counts cards deckId limit now today).new =
      cards.countP (fun c => c.deck_id == deckId && c.state == CState.new) ∧
    (get_queue_counts cards deckId limit now today).review =
      cards.countP (fun c => c.deck_id == deckId && c.state == CState.review
        && strLtb (sqliteDate c.next_review_date) today) := by
  refine ⟨rfl, rfl, ?_⟩
  show cards.countP _ = cards.countP _
  apply countP_congr_eq
  intro c hc
  by_cases hrev : c.state = CState.review
  · rw [strLeb_date_of_long c.next_review_date today htoday (hlong c hc hrev)]
  · have hfalse : (c.state == CState.review) = false := by simp [hrev]
    simp [hfalse]

/-- Witness for C6 (amended): a deck with a review card due today, one
due yesterday, a learning card due now and a new card; only the
yesterday card is counted as review-due. -/
theorem queue_counts_amended_day_strict_witness :
    (("2023-10-27" : String).length = 10 ∧
      (∀ c ∈ [dbReviewDueToday, dbReviewDueYesterday, dbLearningDueNow, dbNewCard],
        c.state = CState.review → 10 < c.next_review_date.length)) ∧
    ((get_queue_counts [dbReviewDueToday, dbReviewDueYesterday, dbLearningDueNow, dbNewCard]
        1 5 "2023-10-27T12:00:00" "2023-10-27").learning =
      List.countP (fun c => c.deck_id == 1 && c.state == CState.learning
        && strLeb c.next_review_date "2023-10-27T12:00:00")
        [dbReviewDueToday, dbReviewDueYesterday, dbLearningDueNow, dbNewCard] ∧
    (get_queue_counts [dbReviewDueToday, dbReviewDueYesterday, dbLearningDueNow, dbNewCard]
        1 5 "2023-10-27T12:00:00" "2023-10-27").new =
      List.countP (fun c => c.deck_id == 1 && c.state == CState.new)
        [dbReviewDueToday, dbReviewDueYesterday, dbLearningDueNow, dbNewCard] ∧
    (get_queue_counts [dbReviewDueToday, dbReviewDueYesterday, dbLearningDueNow, dbNewCard]
        1 5 "2023-10-27T12:00:00" "2023-10-27").review =
      List.countP (fun c => c.deck_id == 1 && c.state == CState.review
        && strLtb (sqliteDate c.next_review_date) "2023-10-27")
        [dbReviewDueToday, dbReviewDueYesterday, dbLearningDueNow, dbNewCard]) :=
  ⟨⟨by decide, by decide⟩,
    queue_counts_amended_day_strict
      [dbReviewDueToday, dbReviewDueYesterday, dbLearningDueNow, dbNewCard]
      1 5 "2023-10-27T12:00:00" "2023-10-27" (by decide) (by decide)⟩

/-- C7.  The new-card quota law of `get_next_card_for_review`
(crud.py:142-162): when the number of cards introduced today is at least
the daily new-card limit, the function never returns a new-state card —
the learning and review queries only ever select learning/review rows —
and when additionally no learning card is due now and no review card is
due by calendar day, it returns nothing at all even if new cards
exist. -/
theorem new_card_quota_law (cards : List DbCard) (deckId limit totalLimit : ℕ)
    (now today : String)
    (hquota : limit ≤ countIntroducedToday cards deckId today) :
    (∀ c, get_next_card_for_review cards deckId limit totalLimit now today = some c →
        c.state ≠ CState.new) ∧
    ((∀ c ∈ cards, (c.deck_id == deckId && c.state == CState.learning &&
        strLeb c.next_review_date now) = false) →
     (∀ c ∈ cards, (c.deck_id == deckId && c.state == CState.review &&
        strLeb (sqliteDate c.next_review_date) today) = false) →
     get_next_card_for_review cards deckId limit totalLimit now today = none) := by
  have hnot : ¬ countIntroducedToday cards deckId today < limit := not_lt.mpr hquota
  constructor
  · intro c h
    unfold get_next_card_for_review at h
    cases h1 : minByNrd (cards.filter fun c =>
        c.deck_id == deckId && c.state == CState.learning
          && strLeb c.next_review_date now) with
    | some m =>
      rw [h1] at h
      have hc : c = m := by injection h with h'; exact h'.symm
      have hm := List.mem_filter.mp (minByNrd_mem _ m h1)
      have hstate : m.state = CState.learning := by
        have hp := hm.2
        simp only [Bool.and_eq_true, beq_iff_eq] at hp
        exact hp.1.2
      rw [hc, hstate]
      simp
    | none =>
      rw [h1] at h
      cases h2 : minByNrd (cards.filter fun c =>
          c.deck_id == deckId && c.state == CState.review
            && strLeb (sqliteDate c.next_review_date) today) with
      | some m =>
        rw [h2] at h
        have hc : c = m := by injection h with h'; exact h'.symm
        have hm := List.mem_filter.mp (minByNrd_mem _ m h2)
        have hstate : m.state = CState.review := by
          have hp := hm.2
          simp only [Bool.and_eq_true, beq_iff_eq] at hp
          exact hp.1.2
        rw [hc, hstate]
        simp
      | none =>
        rw [h2, if_neg hnot] at h
        exact absurd h (by simp)
  · intro hlearn hrev
    have hf1 : (cards.filter fun c =>
        c.deck_id == deckId && c.state == CState.learning
          && strLeb c.next_review_date now) = [] := by
      rw [List.filter_eq_nil_iff]
      intro a ha
      simp [hlearn a ha]
    have hf2 : (cards.filter fun c =>
        c.deck_id == deckId && c.state == CState.review
          && strLeb (sqliteDate c.next_review_date) today) = [] := by
      rw [List.filter_eq_nil_iff]
      intro a ha
      simp [hrev a ha]
    unfold get_next_card_for_review
    rw [hf1, hf2]
    simp [minByNrd, pickBy, if_neg hnot]

/-- Witness for C7: a deck holding a learning card already introduced
today but not due, plus an untouched new card, with a daily limit of 1:
the quota is exhausted, nothing is due, and the session returns
nothing. -/
theorem new_card_quota_law_witness :
    (1 ≤ countIntroducedToday [dbLearningFuture, dbNewCard] 1 "2023-10-27" ∧
      (∀ c ∈ [dbLearningFuture, dbNewCard], (c.deck_id == 1 && c.state == CState.learning &&
        strLeb c.next_review_date "2023-10-27T12:00:00") = false) ∧
      (∀ c ∈ [dbLearningFuture, dbNewCard], (c.deck_id == 1 && c.state == CState.review &&
        strLeb (sqliteDate c.next_review_date) "2023-10-27") = false)) ∧
    get_next_card_for_review [dbLearningFuture, dbNewCard] 1 1 20
      "2023-10-27T12:00:00" "2023-10-27" = none :=
  ⟨⟨by decide, by decide, by decide⟩,
    (new_card_quota_law [dbLearningFuture, dbNewCard] 1 1 20 "2023-10-27T12:00:00"
      "2023-10-27" (by decide)).2 (by decide) (by decide)⟩
